import Mathlib

/-!
# 2DGameEngine (SimpleChess): entity lifecycle and the game loop

A shallow embedding of `src/Entity/Entity.cpp` and `src/SimpleChess.cpp`.

* Stateful member functions become functions from the old state to the new
  state, paired with the list of calls they issue on their collaborators
  (component hooks, the SDL renderer, the state machine, the entity manager).
* Collaborators whose code lives in headers that are not part of the two
  translation units are either parameters or are modelled from the
  specification, and say so in their doc comment.
* `unsigned int` values are natural numbers reduced modulo `2 ^ 32`; `float`
  values are the rationals they denote, every operation rounding its exact
  result to binary32 (round to nearest, ties to even).
-/

namespace SimpleChess

/-! ## Entity (src/Entity/Entity.cpp) -/

/-- Modelled from the spec: the `Layer` enumeration is declared in a header
that is not among the sources; the specification lists `board_square` and
`chess_piece`. -/
inductive Layer where
  | board_square
  | chess_piece
  deriving DecidableEq, Repr

/-- Data members of `Entity` that `Entity.cpp` reads or writes. `C` is the type
of a component's state. The back reference `entityManager` and the
`componentTypes` registry are never touched by the functions embedded here. -/
structure Entity (C : Type) where
  name : String
  layer_ : Layer
  isActive : Bool
  components : List C
  deriving DecidableEq, Repr

/-- The two virtual hooks of a component, as transformers of the component's
own state (the component classes are not among the sources, so the hooks are
parameters). `DT` is the type of the `deltaTime` argument (`float`). -/
structure ComponentHooks (C DT : Type) where
  Update : DT → C → C
  Render : C → C

/-- One invocation of a component hook: the component it was invoked on (its
state when the call was made) and the argument it was given. -/
inductive HookCall (C DT : Type) where
  | Update (component : C) (deltaTime : DT)
  | Render (component : C)
  deriving DecidableEq, Repr

/-- `Entity::Entity(EntityManager& manager)`: `name` is default constructed,
`layer_` is not mentioned by the initialiser list and keeps whatever the
header gives it (`defaultLayer`), `isActive` is set to `true`. -/
def Entity.Entity_manager {C : Type} (defaultLayer : Layer) : Entity C :=
  { name := "", layer_ := defaultLayer, isActive := true, components := [] }

/-- `Entity::Entity(EntityManager& manager, std::string name)`. -/
def Entity.Entity_name {C : Type} (defaultLayer : Layer) (name : String) : Entity C :=
  { name := name, layer_ := defaultLayer, isActive := true, components := [] }

/-- `Entity::Entity(EntityManager& manager, std::string name, Layer layer)`. -/
def Entity.Entity_name_layer {C : Type} (name : String) (layer : Layer) : Entity C :=
  { name := name, layer_ := layer, isActive := true, components := [] }

/-- Modelled from the spec: `Entity::AddComponent<K>` is a template of the
header, which is not among the sources; per the specification it appends the
new component to the ordered component sequence. -/
def Entity.AddComponent {C : Type} (e : Entity C) (c : C) : Entity C :=
  { e with components := e.components ++ [c] }

/-- The loop `for (auto& component: components) component->Update(deltaTime);`
returning the components after the calls and the calls made, in order. -/
def updateLoop {C DT : Type} (hooks : ComponentHooks C DT) (deltaTime : DT) :
    List C → List C × List (HookCall C DT)
  | [] => ([], [])
  | c :: cs =>
    let rest := updateLoop hooks deltaTime cs
    (hooks.Update deltaTime c :: rest.1, HookCall.Update c deltaTime :: rest.2)

/-- The loop `for (auto& component: components) component->Render();`. -/
def renderLoop {C DT : Type} (hooks : ComponentHooks C DT) :
    List C → List C × List (HookCall C DT)
  | [] => ([], [])
  | c :: cs =>
    let rest := renderLoop hooks cs
    (hooks.Render c :: rest.1, HookCall.Render c :: rest.2)

/-- `Entity::Update(float deltaTime)`: the entity afterwards and the hook
calls issued. -/
def Entity.Update {C DT : Type} (hooks : ComponentHooks C DT) (e : Entity C) (deltaTime : DT) :
    Entity C × List (HookCall C DT) :=
  if e.isActive == false then
    (e, [])
  else
    let r := updateLoop hooks deltaTime e.components
    ({ e with components := r.1 }, r.2)

/-- `Entity::Render()`: the entity afterwards and the hook calls issued. -/
def Entity.Render {C DT : Type} (hooks : ComponentHooks C DT) (e : Entity C) :
    Entity C × List (HookCall C DT) :=
  if e.isActive == false then
    (e, [])
  else
    let r := renderLoop hooks e.components
    ({ e with components := r.1 }, r.2)

/-- `Entity::Destroy()`. -/
def Entity.Destroy {C : Type} (e : Entity C) : Entity C :=
  { e with isActive := false }

/-- `Entity::Activate()`. -/
def Entity.Activate {C : Type} (e : Entity C) : Entity C :=
  { e with isActive := true }

/-- `Entity::IsActive()`. -/
def Entity.IsActive {C : Type} (e : Entity C) : Bool :=
  e.isActive

/-- A call of one of the four member functions that the lifecycle claims
range over. -/
inductive EntityCall (DT : Type) where
  | Destroy
  | Activate
  | Update (deltaTime : DT)
  | Render
  deriving DecidableEq, Repr

/-- Performing one call: the entity afterwards and the hook calls issued. -/
def Entity.call {C DT : Type} (hooks : ComponentHooks C DT) (e : Entity C) :
    EntityCall DT → Entity C × List (HookCall C DT)
  | EntityCall.Destroy => (e.Destroy, [])
  | EntityCall.Activate => (e.Activate, [])
  | EntityCall.Update deltaTime => e.Update hooks deltaTime
  | EntityCall.Render => e.Render hooks

/-- The entity after a finite sequence of calls, performed left to right. -/
def Entity.run {C DT : Type} (hooks : ComponentHooks C DT) (e : Entity C) :
    List (EntityCall DT) → Entity C
  | [] => e
  | k :: ks => Entity.run hooks (e.call hooks k).1 ks

/-- The two calls that write `isActive`. -/
inductive Lifecycle where
  | Destroy
  | Activate
  deriving DecidableEq, Repr

/-- The most recent `Destroy` or `Activate` in a sequence of calls (the last
element of the list is the most recent call), if there is one. -/
def mostRecentLifecycle {DT : Type} : List (EntityCall DT) → Option Lifecycle
  | [] => none
  | k :: ks =>
    match mostRecentLifecycle ks with
    | some l => some l
    | none =>
      match k with
      | EntityCall.Destroy => some Lifecycle.Destroy
      | EntityCall.Activate => some Lifecycle.Activate
      | _ => none

/-- Entities obtained from one of the three constructors, possibly followed
by `AddComponent` calls. -/
inductive Entity.Built {C : Type} : Entity C → Prop where
  | manager (defaultLayer : Layer) : Entity.Built (Entity.Entity_manager defaultLayer)
  | name (defaultLayer : Layer) (n : String) : Entity.Built (Entity.Entity_name defaultLayer n)
  | name_layer (n : String) (l : Layer) : Entity.Built (Entity.Entity_name_layer n l)
  | AddComponent {e : Entity C} (c : C) : Entity.Built e → Entity.Built (e.AddComponent c)

/-- A sample component for concrete runs: a counter that `Update` advances by
the delta time and `Render` leaves alone. -/
def counterHooks : ComponentHooks Nat Nat :=
  { Update := fun deltaTime c => c + deltaTime, Render := fun c => c }

/-! ## SimpleChess (src/SimpleChess.cpp) -/

/-! ### Construction, `IsRunning`, `Initialize` -/

/-- Data members of `SimpleChess` written by the functions embedded here.
Pointers are natural numbers, `0` being the null pointer. `renderer` is the
static member `SimpleChess::renderer`. -/
structure Game where
  isRunning : Bool
  window : Nat
  renderer : Nat
  deriving DecidableEq, Repr

/-- `SimpleChess::SimpleChess()`: sets `isRunning` to `false`; the two
pointers keep the values `window0` and `renderer0` they had before. -/
def Game.SimpleChess (window0 renderer0 : Nat) : Game :=
  { isRunning := false, window := window0, renderer := renderer0 }

/-- `SimpleChess::IsRunning()`. -/
def Game.IsRunning (g : Game) : Bool :=
  g.isRunning

/-- What the three SDL start-up functions return in one run of `Initialize`:
the status of `SDL_Init` and the two pointers. -/
structure SDLStartup where
  SDL_Init : Int
  SDL_CreateWindow : Nat
  SDL_CreateRenderer : Nat
  deriving DecidableEq, Repr

/-- Values of the `Constants::` globals read by `Initialize` and
`LoadBoardSetup`; their declarations are in a header that is not among the
sources, so they are parameters. -/
structure Constants where
  square_sidelength : Int
  chessboard_offset : Int
  chesspiece_sidelength : Int
  deriving DecidableEq, Repr

/-- Modelled from the spec: the concrete turn states of the state machine
(`WhiteTurn`, `BlackTurn`); only the name `WhiteTurn` occurs in the sources. -/
inductive TurnState where
  | WhiteTurn
  | BlackTurn
  deriving DecidableEq, Repr

/-- The observable steps of `SimpleChess::Initialize`, one per statement of
its body, with the arguments the statement passes. -/
inductive InitStep where
  | SDL_Init
  | cerr (message : String)
  | SDL_CreateWindow (width height : Int)
  | SDL_CreateRenderer (window : Nat)
  | InitializeLua
  | LoadAssets
  | make_ChessBoard (assetId : String) (scale : Int) (square_sidelength chessboard_offset : Int)
  | LoadBoard
  | LoadBoardSetup
  | make_Statemachine (initial : TurnState) (GetEntities : Layer)
  | assign_isRunning (value : Bool)
  deriving DecidableEq, Repr

/-- `SimpleChess::Initialize(int width, int height)`: the object afterwards and
the steps executed, in order. `sdl` gives the results of the SDL calls and
`k` the values of the constants when `ChessBoard` is constructed. -/
def Game.Initialize (sdl : SDLStartup) (k : Constants) (g : Game) (width height : Int) :
    Game × List InitStep :=
  if sdl.SDL_Init != 0 then
    (g, [InitStep.SDL_Init, InitStep.cerr "Error initializing SDL."])
  else
    let g1 := { g with window := sdl.SDL_CreateWindow }
    if g1.window == 0 then
      (g1, [InitStep.SDL_Init, InitStep.SDL_CreateWindow width height,
            InitStep.cerr "Error creating SDL window."])
    else
      let g2 := { g1 with renderer := sdl.SDL_CreateRenderer }
      if g2.renderer == 0 then
        (g2, [InitStep.SDL_Init, InitStep.SDL_CreateWindow width height,
              InitStep.SDL_CreateRenderer g1.window,
              InitStep.cerr "Error creating SDL renderer."])
      else
        ({ g2 with isRunning := true },
          [InitStep.SDL_Init, InitStep.SDL_CreateWindow width height,
           InitStep.SDL_CreateRenderer g1.window,
           InitStep.InitializeLua,
           InitStep.LoadAssets,
           InitStep.make_ChessBoard "board_squares" 1 k.square_sidelength k.chessboard_offset,
           InitStep.LoadBoard,
           InitStep.LoadBoardSetup,
           InitStep.make_Statemachine TurnState.WhiteTurn Layer.chess_piece,
           InitStep.assign_isRunning true])

/-- The steps of `Initialize` that come after the three SDL start-up calls. -/
def InitStep.isLater : InitStep → Bool
  | InitStep.InitializeLua => true
  | InitStep.LoadAssets => true
  | InitStep.make_ChessBoard _ _ _ _ => true
  | InitStep.LoadBoard => true
  | InitStep.LoadBoardSetup => true
  | InitStep.make_Statemachine _ _ => true
  | InitStep.assign_isRunning _ => true
  | _ => false

/-- One record of the Lua table `chessboard_setup`, with the five fields
`LoadBoardSetup` reads. -/
structure SetupRecord where
  name : String
  type : String
  color : String
  killed : Bool
  position : String
  deriving DecidableEq, Repr

/-- The three components `LoadBoardSetup` constructs, with their constructor
arguments. -/
inductive Component where
  | TransformComponent (position : String) (width height : Int) (scale : Int)
  | SpriteComponent (assetId : String)
  | ChesspieceComponent (type color : String) (killed : Bool)
  deriving DecidableEq, Repr

/-- The characters of a `std::string` seen through `c_str()` by a callee that
takes `const char*`: those before the first NUL character. -/
def c_str (s : String) : String :=
  String.mk (s.data.takeWhile (fun ch => ch != Char.ofNat 0))

/-- A string without a NUL character. -/
def noNul (s : String) : Prop :=
  ∀ ch ∈ s.data, ch ≠ Char.ofNat 0

instance (s : String) : Decidable (noNul s) :=
  inferInstanceAs (Decidable (∀ ch ∈ s.data, ch ≠ Char.ofNat 0))

/-- A call `LoadBoardSetup` makes: `manager.AddEntity(name, layer)`, or
`newEntity.AddComponent<K>(...)` on the reference `newEntity` that the
`AddEntity` call of the same iteration returned. -/
inductive SetupCall where
  | AddEntity (name : String) (layer : Layer)
  | AddComponent (component : Component)
  deriving DecidableEq, Repr

/-- The body of the `while (true)` loop of `LoadBoardSetup` for one record
that exists: the calls made, in order. -/
def LoadBoardSetup.body (k : Constants) (chesspiece : SetupRecord) : List SetupCall :=
  let name := chesspiece.name
  let type := chesspiece.type
  let color := chesspiece.color
  let killed := chesspiece.killed
  let asset_id := (color.push '_') ++ type
  let position := chesspiece.position
  [SetupCall.AddEntity name Layer.chess_piece,
   SetupCall.AddComponent
     (Component.TransformComponent position k.chesspiece_sidelength k.chesspiece_sidelength 1),
   SetupCall.AddComponent (Component.SpriteComponent (c_str asset_id)),
   SetupCall.AddComponent (Component.ChesspieceComponent type color killed)]

/-- The `while (true)` loop of `LoadBoardSetup`, from `index` on: the calls
made. `chessboardSetup index` is `none` when `sol::optional<sol::table>` is
`nullopt`. `index` is an `unsigned int`, so `index++` wraps at `2 ^ 32`. The
loop has no bound of its own: `fuel` bounds the number of iterations and
`none` is returned when it runs out. -/
def LoadBoardSetup.loop (k : Constants) (chessboardSetup : Nat → Option SetupRecord) :
    Nat → Nat → Option (List SetupCall)
  | 0, _ => none
  | fuel + 1, index =>
    match chessboardSetup index with
    | none => some []
    | some chesspiece =>
      match LoadBoardSetup.loop k chessboardSetup fuel ((index + 1) % 2 ^ 32) with
      | none => none
      | some calls => some (LoadBoardSetup.body k chesspiece ++ calls)

/-- `SimpleChess::LoadBoardSetup()`: the calls made, in order. -/
def LoadBoardSetup (k : Constants) (chessboardSetup : Nat → Option SetupRecord) (fuel : Nat) :
    Option (List SetupCall) :=
  LoadBoardSetup.loop k chessboardSetup fuel 0

/-- The calls the specification describes for one setup record: `AddEntity`
with the record's name in layer `chess_piece`, then the three components in
the order transform, sprite, chess piece, the sprite's asset id being
`color ++ "_" ++ type`. -/
def specPieceCalls (k : Constants) (r : SetupRecord) : List SetupCall :=
  [SetupCall.AddEntity r.name Layer.chess_piece,
   SetupCall.AddComponent
     (Component.TransformComponent r.position k.chesspiece_sidelength k.chesspiece_sidelength 1),
   SetupCall.AddComponent (Component.SpriteComponent (r.color ++ "_" ++ r.type)),
   SetupCall.AddComponent (Component.ChesspieceComponent r.type r.color r.killed)]

/-- Modelled from the spec: `EntityManager::AddEntity(name, layer)` (the
manager is not among the sources) constructs a new active entity with the
three-argument constructor and stores it after the existing ones. -/
def EntityManager.AddEntity {C : Type} (entities : List (Entity C)) (name : String)
    (layer : Layer) : List (Entity C) :=
  entities ++ [Entity.Entity_name_layer name layer]

/-- Modelled from the spec: the reference `AddEntity` returns designates the
entity it has just stored, the last one of the storage; a member function
called through it acts on that entity. -/
def EntityManager.onNewEntity {C : Type} (f : Entity C → Entity C) :
    List (Entity C) → List (Entity C)
  | [] => []
  | [e] => [f e]
  | e :: e2 :: es => e :: EntityManager.onNewEntity f (e2 :: es)

/-- Modelled from the spec: the effect of one call of `LoadBoardSetup` on the
manager's entities, by `EntityManager.AddEntity` and `Entity.AddComponent`. -/
def EntityManager.perform (entities : List (Entity Component)) :
    SetupCall → List (Entity Component)
  | SetupCall.AddEntity name layer => EntityManager.AddEntity entities name layer
  | SetupCall.AddComponent c => EntityManager.onNewEntity (fun e => e.AddComponent c) entities

/-- The piece entity the specification describes for one setup record: name
from the record, layer `chess_piece`, active, and the three components in the
order transform, sprite, chess piece. -/
def pieceOf (k : Constants) (r : SetupRecord) : Entity Component :=
  { name := r.name
    layer_ := Layer.chess_piece
    isActive := true
    components :=
      [Component.TransformComponent r.position k.chesspiece_sidelength k.chesspiece_sidelength 1,
       Component.SpriteComponent (r.color ++ "_" ++ r.type),
       Component.ChesspieceComponent r.type r.color r.killed] }

/-- The calls of `specPieceCalls` with the sprite's asset id as the callee
receives it through `c_str()`: the characters of `color ++ "_" ++ type` before
the first NUL character. -/
def cStringPieceCalls (k : Constants) (r : SetupRecord) : List SetupCall :=
  [SetupCall.AddEntity r.name Layer.chess_piece,
   SetupCall.AddComponent
     (Component.TransformComponent r.position k.chesspiece_sidelength k.chesspiece_sidelength 1),
   SetupCall.AddComponent (Component.SpriteComponent (c_str (r.color ++ "_" ++ r.type))),
   SetupCall.AddComponent (Component.ChesspieceComponent r.type r.color r.killed)]

/-- The piece entity of `pieceOf` with the sprite's asset id as the callee
receives it through `c_str()`. -/
def cStringPieceOf (k : Constants) (r : SetupRecord) : Entity Component :=
  { name := r.name
    layer_ := Layer.chess_piece
    isActive := true
    components :=
      [Component.TransformComponent r.position k.chesspiece_sidelength k.chesspiece_sidelength 1,
       Component.SpriteComponent (c_str (r.color ++ "_" ++ r.type)),
       Component.ChesspieceComponent r.type r.color r.killed] }

/-- A setup table with one record, whose colour string holds a NUL character
after `wh`. -/
def nulSetup : Nat → Option SetupRecord
  | 0 => some (SetupRecord.mk "white_pawn_1" "pawn" "wh\x00ite" false "A2")
  | _ => none

/-- A setup table with the same record at every index an `unsigned int` can
hold and none at index `2 ^ 32`. -/
def fullSetup (index : Nat) : Option SetupRecord :=
  if index < 2 ^ 32 then some (SetupRecord.mk "white_pawn_1" "pawn" "white" false "A2") else none

/-- A sample setup table: a white pawn at index 0, a black king at index 1. -/
def sampleSetup : Nat → Option SetupRecord
  | 0 => some (SetupRecord.mk "white_pawn_1" "pawn" "white" false "A2")
  | 1 => some (SetupRecord.mk "black_king" "king" "black" false "E8")
  | _ => none

/-! ### `ProcessInput` -/

/-- An SDL event as `ProcessInput` distinguishes it: by `event.type`, with the
key symbol of a key press and the coordinates of a mouse motion. `other` is
any event type without a `case` of its own. -/
inductive Event where
  | SDL_QUIT
  | SDL_KEYDOWN (sym : Int)
  | SDL_MOUSEBUTTONDOWN
  | SDL_MOUSEBUTTONUP
  | SDL_MOUSEMOTION (x y : Int)
  | other
  deriving DecidableEq, Repr

/-- The SDL key code of the escape key. -/
def SDLK_ESCAPE : Int := 27

/-- A call of a member function of the state machine, with its arguments. -/
inductive StatemachineCall where
  | SetMousebutton (down : Bool)
  | UpdateStatemachine
  | SetMousePosition (x y : Int)
  deriving DecidableEq, Repr

/-- The three member functions of `Statemachine` that `ProcessInput` calls, as
transformers of the state machine's state `S`; the class is not among the
sources, so they are parameters. -/
structure StatemachineOps (S : Type) where
  SetMousebutton : Bool → S → S
  UpdateStatemachine : S → S
  SetMousePosition : Int → Int → S → S

/-- One iteration of the `while (SDL_PollEvent(&event))` loop: the `switch`
on `event.type`. Returns the object and the state machine afterwards, and the
calls issued on the state machine, each with the state it was issued on. -/
def ProcessInput.handle {S : Type} (ops : StatemachineOps S) (g : Game) (statemachine : S) :
    Event → (Game × S) × List (StatemachineCall × S)
  | Event.SDL_QUIT => (({ g with isRunning := false }, statemachine), [])
  | Event.SDL_KEYDOWN sym =>
    if sym == SDLK_ESCAPE then
      (({ g with isRunning := false }, statemachine), [])
    else
      ((g, statemachine), [])
  | Event.SDL_MOUSEBUTTONDOWN =>
    ((g, ops.SetMousebutton true statemachine),
      [(StatemachineCall.SetMousebutton true, statemachine)])
  | Event.SDL_MOUSEBUTTONUP =>
    let updated := ops.UpdateStatemachine statemachine
    ((g, ops.SetMousebutton false updated),
      [(StatemachineCall.UpdateStatemachine, statemachine),
       (StatemachineCall.SetMousebutton false, updated)])
  | Event.SDL_MOUSEMOTION x y =>
    ((g, ops.SetMousePosition x y statemachine),
      [(StatemachineCall.SetMousePosition x y, statemachine)])
  | Event.other => ((g, statemachine), [])

/-- `SimpleChess::ProcessInput()`: `SDL_PollEvent` hands out the pending
events of the queue front to back until none is left. -/
def ProcessInput {S : Type} (ops : StatemachineOps S) :
    List Event → Game → S → (Game × S) × List (StatemachineCall × S)
  | [], g, statemachine => ((g, statemachine), [])
  | event :: queue, g, statemachine =>
    let r := ProcessInput.handle ops g statemachine event
    let rest := ProcessInput ops queue r.1.1 r.1.2
    (rest.1, r.2 ++ rest.2)

/-- The per-event mapping as the specification words it: button-down gives
`SetMousebutton(true)`, button-up gives `UpdateStatemachine()` then
`SetMousebutton(false)`, motion gives `SetMousePosition(x, y)`, any other
event gives nothing. -/
def specCalls : Event → List StatemachineCall
  | Event.SDL_MOUSEBUTTONDOWN => [StatemachineCall.SetMousebutton true]
  | Event.SDL_MOUSEBUTTONUP =>
    [StatemachineCall.UpdateStatemachine, StatemachineCall.SetMousebutton false]
  | Event.SDL_MOUSEMOTION x y => [StatemachineCall.SetMousePosition x y]
  | _ => []

/-- What one recorded call does to the state machine: the operation it names,
with its arguments. -/
def StatemachineOps.apply {S : Type} (ops : StatemachineOps S) (statemachine : S) :
    StatemachineCall → S
  | StatemachineCall.SetMousebutton down => ops.SetMousebutton down statemachine
  | StatemachineCall.UpdateStatemachine => ops.UpdateStatemachine statemachine
  | StatemachineCall.SetMousePosition x y => ops.SetMousePosition x y statemachine

/-- A sequence of calls issued one after the other from a given state: each
call with the state it is issued on, which is the state the calls before it
have produced. -/
def issueOn {S : Type} (ops : StatemachineOps S) : S → List StatemachineCall →
    List (StatemachineCall × S)
  | _, [] => []
  | statemachine, call :: calls =>
    (call, statemachine) :: issueOn ops (ops.apply statemachine call) calls

/-- The events on which `ProcessInput` clears `isRunning`: `SDL_QUIT`, and a
key press of the escape key. -/
def Event.quits : Event → Bool
  | Event.SDL_QUIT => true
  | Event.SDL_KEYDOWN sym => sym == SDLK_ESCAPE
  | _ => false

/-- Modelled from the spec: the mouse cache of `Statemachine` (the class is
not among the sources): the button flag and the last known pointer position,
next to the remaining state `rest` (turn, selection, pieces). -/
structure Statemachine (R : Type) where
  mousebutton : Bool
  mouseX : Int
  mouseY : Int
  rest : R
  deriving DecidableEq, Repr

/-- Modelled from the spec: `Statemachine::SetMousebutton(down)` is a plain
write of the button flag. -/
def Statemachine.SetMousebutton {R : Type} (down : Bool) (s : Statemachine R) :
    Statemachine R :=
  { s with mousebutton := down }

/-- Modelled from the spec: `Statemachine::SetMousePosition(x, y)` is a plain
write of the cached pointer position. -/
def Statemachine.SetMousePosition {R : Type} (x y : Int) (s : Statemachine R) :
    Statemachine R :=
  { s with mouseX := x, mouseY := y }

/-- Modelled from the spec: `Statemachine::UpdateStatemachine()` reads the
whole state, the mouse cache included, and writes turn and selection state
only; `transition` is that effect. -/
def Statemachine.UpdateStatemachine {R : Type} (transition : Statemachine R → R)
    (s : Statemachine R) : Statemachine R :=
  { s with rest := transition s }

/-- The three operations of the modelled state machine, for `ProcessInput`. -/
def Statemachine.ops {R : Type} (transition : Statemachine R → R) :
    StatemachineOps (Statemachine R) :=
  { SetMousebutton := Statemachine.SetMousebutton
    UpdateStatemachine := Statemachine.UpdateStatemachine transition
    SetMousePosition := Statemachine.SetMousePosition }

/-- Coordinates of the latest motion event in a queue prefix (the last
element is the latest), if there is one. -/
def latestMotion : List Event → Option (Int × Int)
  | [] => none
  | event :: queue =>
    match latestMotion queue with
    | some p => some p
    | none =>
      match event with
      | Event.SDL_MOUSEMOTION x y => some (x, y)
      | _ => none

/-- The value written to the button flag by the latest button event in a
queue prefix: `true` for a button-down, `false` for a button-up. -/
def latestButton : List Event → Option Bool
  | [] => none
  | event :: queue =>
    match latestButton queue with
    | some b => some b
    | none =>
      match event with
      | Event.SDL_MOUSEBUTTONDOWN => some true
      | Event.SDL_MOUSEBUTTONUP => some false
      | _ => none

/-! ### `Render` -/

/-- The calls `SimpleChess::Render` makes on the SDL renderer and on the
entity manager's render pass. -/
inductive RenderCall where
  | SDL_SetRenderDrawColor (r g b a : Nat)
  | SDL_RenderClear
  | manager_Render
  | SDL_RenderPresent
  deriving DecidableEq, Repr

/-- `SimpleChess::Render()`: the calls made, in order. `HasNoEntities` is the
value `manager.HasNoEntities()` returns in the manager's current state. -/
def Render (HasNoEntities : Bool) : List RenderCall :=
  [RenderCall.SDL_SetRenderDrawColor 21 21 21 255, RenderCall.SDL_RenderClear] ++
    if HasNoEntities then
      []
    else
      [RenderCall.manager_Render, RenderCall.SDL_RenderPresent]

/-! ### `Update` -/

/-- Rounding of the non-negative rational `num / den` to the nearest integer,
ties to the even one. -/
def roundHalfEven (num den : Nat) : Nat :=
  let q := num / den
  let r := num % den
  if 2 * r < den then q
  else if den < 2 * r then q + 1
  else if q % 2 = 0 then q else q + 1

/-- The position of the leading binary digit of `n` (0 for `n < 2`), by
halving at most `fuel` times. -/
def log2Aux : Nat → Nat → Nat
  | 0, _ => 0
  | fuel + 1, n => if 2 ≤ n then log2Aux fuel (n / 2) + 1 else 0

/-- The integer `e` with `2 ^ e ≤ num / den < 2 ^ (e + 1)`, for positive `num`
and `den`. -/
def floorLog2 (num den : Nat) : Int :=
  let a := log2Aux num num
  let b := log2Aux den den
  if den * 2 ^ a ≤ num * 2 ^ b then (a : Int) - b else (a : Int) - b - 1

/-- The `float` (IEEE 754 binary32) nearest to the non-negative rational
`num / den`, ties to even, as a rational: 24 significant binary digits, the
exponent not below -126. Overflow is not modelled; the values `Update` forms
stay below `2 ^ 33`. -/
def binary32 (num den : Nat) : ℚ :=
  if num = 0 then 0
  else
    let e := max (floorLog2 num den) (-126)
    let s := 23 - e
    let m :=
      if 0 ≤ s then roundHalfEven (num * 2 ^ s.toNat) den
      else roundHalfEven num (den * 2 ^ (-s).toNat)
    (m : ℚ) * (2 : ℚ) ^ (-s)

/-- The literal `0.05f`. -/
def float_0_05 : ℚ := binary32 1 20

/-- The literal `1000.0f`. -/
def float_1000 : ℚ := binary32 1000 1

/-- Conversion of an `unsigned int` to `float`. -/
def float_of_uint32 (n : Nat) : ℚ := binary32 n 1

/-- Division of two non-negative `float` values: the exact quotient, rounded. -/
def float_div (a b : ℚ) : ℚ := binary32 (a / b).num.toNat (a / b).den

/-- Subtraction of 32-bit unsigned integers. -/
def uint32_sub (a b : Nat) : Nat := (a % 2 ^ 32 + 2 ^ 32 - b % 2 ^ 32) % 2 ^ 32

/-- Conversion of a 32-bit unsigned integer to `int`. -/
def int_of_uint32 (n : Nat) : Int := if n < 2 ^ 31 then (n : Int) else (n : Int) - 2 ^ 32

/-- The calls `SimpleChess::Update` makes. -/
inductive UpdateCall where
  | SDL_Delay (ms : Int)
  | manager_Update (deltaTime : ℚ)
  deriving DecidableEq

/-- The two statements of `Update` that compute `deltaTime`, from the value
`SDL_GetTicks()` returns there and `ticksLastFrame` (as 32-bit patterns). -/
def Update.deltaTime (ticks ticksLastFrame : Nat) : ℚ :=
  let deltaTime := float_div (float_of_uint32 (uint32_sub ticks ticksLastFrame)) float_1000
  if deltaTime > float_0_05 then float_0_05 else deltaTime

/-- `SimpleChess::Update()`: the new `ticksLastFrame` and the calls made.
`ticks1`, `ticks2`, `ticks3` are what the three `SDL_GetTicks()` calls return,
in order; `FRAME_TARGET_TIME` is declared in a header that is not among the
sources and is a parameter. -/
def Update (FRAME_TARGET_TIME ticks1 ticks2 ticks3 ticksLastFrame : Nat) :
    Nat × List UpdateCall :=
  let timeToWait :=
    int_of_uint32 (uint32_sub FRAME_TARGET_TIME (uint32_sub ticks1 ticksLastFrame))
  let delay :=
    if 0 < timeToWait ∧ timeToWait ≤ (FRAME_TARGET_TIME : Int) then
      [UpdateCall.SDL_Delay timeToWait]
    else
      []
  (ticks3, delay ++ [UpdateCall.manager_Update (Update.deltaTime ticks2 ticksLastFrame)])

/-! ### Lemmas on the entity model -/

section EntityLemmas

variable {C DT : Type}

theorem updateLoop_calls (hooks : ComponentHooks C DT) (dt : DT) (cs : List C) :
    (updateLoop hooks dt cs).2 = cs.map (fun c => HookCall.Update c dt) := by
  induction cs with
  | nil => rfl
  | cons c cs ih => simp [updateLoop, ih]

theorem updateLoop_components (hooks : ComponentHooks C DT) (dt : DT) (cs : List C) :
    (updateLoop hooks dt cs).1 = cs.map (hooks.Update dt) := by
  induction cs with
  | nil => rfl
  | cons c cs ih => simp [updateLoop, ih]

theorem renderLoop_calls (hooks : ComponentHooks C DT) (cs : List C) :
    (renderLoop hooks cs).2 = cs.map (fun c => (HookCall.Render c : HookCall C DT)) := by
  induction cs with
  | nil => rfl
  | cons c cs ih => simp [renderLoop, ih]

theorem renderLoop_components (hooks : ComponentHooks C DT) (cs : List C) :
    (renderLoop hooks cs).1 = cs.map hooks.Render := by
  induction cs with
  | nil => rfl
  | cons c cs ih => simp [renderLoop, ih]

theorem Entity.built_isActive {e : Entity C} (h : Entity.Built e) : e.isActive = true := by
  induction h with
  | manager _ => rfl
  | name _ _ => rfl
  | name_layer _ _ => rfl
  | AddComponent _ _ ih => simpa [Entity.AddComponent] using ih

theorem Entity.call_frame (hooks : ComponentHooks C DT) (e : Entity C) (k : EntityCall DT) :
    (e.call hooks k).1.name = e.name ∧ (e.call hooks k).1.layer_ = e.layer_ ∧
      (e.call hooks k).1.components.length = e.components.length := by
  cases k with
  | Destroy => simp [Entity.call, Entity.Destroy]
  | Activate => simp [Entity.call, Entity.Activate]
  | Update dt =>
    by_cases h : e.isActive = true <;>
      simp [Entity.call, Entity.Update, h, updateLoop_components]
  | Render =>
    by_cases h : e.isActive = true <;>
      simp [Entity.call, Entity.Render, h, renderLoop_components]

theorem Entity.call_isActive (hooks : ComponentHooks C DT) (e : Entity C) (k : EntityCall DT) :
    (e.call hooks k).1.isActive =
      match k with
      | EntityCall.Destroy => false
      | EntityCall.Activate => true
      | _ => e.isActive := by
  cases k with
  | Destroy => rfl
  | Activate => rfl
  | Update dt =>
    by_cases h : e.isActive = true <;> simp [Entity.call, Entity.Update, h]
  | Render =>
    by_cases h : e.isActive = true <;> simp [Entity.call, Entity.Render, h]

theorem Entity.run_frame (hooks : ComponentHooks C DT) (ks : List (EntityCall DT)) :
    ∀ e : Entity C, (e.run hooks ks).name = e.name ∧ (e.run hooks ks).layer_ = e.layer_ ∧
      (e.run hooks ks).components.length = e.components.length := by
  induction ks with
  | nil => intro e; simp [Entity.run]
  | cons k ks ih =>
    intro e
    obtain ⟨h1, h2, h3⟩ := ih (e.call hooks k).1
    obtain ⟨g1, g2, g3⟩ := Entity.call_frame hooks e k
    simp only [Entity.run]
    exact ⟨h1.trans g1, h2.trans g2, h3.trans g3⟩

/-- The activity flag after a sequence of calls is decided by the most recent
lifecycle call, and is the initial flag when there is none. -/
theorem Entity.run_isActive (hooks : ComponentHooks C DT) (ks : List (EntityCall DT)) :
    ∀ e : Entity C, (e.run hooks ks).isActive =
      match mostRecentLifecycle ks with
      | some Lifecycle.Destroy => false
      | some Lifecycle.Activate => true
      | none => e.isActive := by
  induction ks with
  | nil => intro e; rfl
  | cons k ks ih =>
    intro e
    simp only [Entity.run, mostRecentLifecycle]
    rw [ih]
    cases hm : mostRecentLifecycle ks with
    | some l => cases l <;> rfl
    | none =>
      simp only
      rw [Entity.call_isActive]
      cases k <;> rfl

end EntityLemmas

/-! ## Entity lifecycle claims -/

section EntityClaims

variable {C DT : Type}

/-- C1: for an entity built by any of the three constructors (and given
components afterwards) and any finite sequence `pre` of Destroy, Activate,
Update and Render calls already performed on it, a following Update or Render
call invokes no component hook when the most recent lifecycle call in `pre`
is Destroy: no call is issued and the entity, its components included, is
left exactly as it was. When `pre` holds no lifecycle call or the most recent
one is Activate, the call invokes the hook of every component: one call per
component, in order, and the entity afterwards is the same entity with every
component replaced by what its hook returns. -/
theorem C1_hooks_follow_most_recent_lifecycle (hooks : ComponentHooks C DT) (e : Entity C)
    (built : Entity.Built e) (pre : List (EntityCall DT)) :
    (mostRecentLifecycle pre = some Lifecycle.Destroy →
        (∀ dt : DT, (e.run hooks pre).call hooks (EntityCall.Update dt) =
          (e.run hooks pre, [])) ∧
        (e.run hooks pre).call hooks EntityCall.Render = (e.run hooks pre, [])) ∧
    (mostRecentLifecycle pre = none ∨ mostRecentLifecycle pre = some Lifecycle.Activate →
        (∀ dt : DT, (e.run hooks pre).call hooks (EntityCall.Update dt) =
          (Entity.mk (e.run hooks pre).name (e.run hooks pre).layer_ true
              ((e.run hooks pre).components.map (hooks.Update dt)),
            (e.run hooks pre).components.map (fun c => HookCall.Update c dt))) ∧
        (e.run hooks pre).call hooks EntityCall.Render =
          (Entity.mk (e.run hooks pre).name (e.run hooks pre).layer_ true
              ((e.run hooks pre).components.map hooks.Render),
            (e.run hooks pre).components.map (fun c => HookCall.Render c)) ∧
        (e.run hooks pre).components.length = e.components.length) := by
  have hact := Entity.run_isActive hooks pre e
  rw [Entity.built_isActive built] at hact
  refine ⟨fun hd => ?_, fun ha => ?_⟩
  · rw [hd] at hact
    simp [Entity.call, Entity.Update, Entity.Render, hact]
  · have hrun : (e.run hooks pre).isActive = true := by
      rcases ha with ha | ha <;> rw [ha] at hact <;> exact hact
    refine ⟨fun dt => ?_, ?_, (Entity.run_frame hooks pre e).2.2⟩
    · simp [Entity.call, Entity.Update, hrun, updateLoop_calls, updateLoop_components]
    · simp [Entity.call, Entity.Render, hrun, renderLoop_calls, renderLoop_components]

/-- Witness for C1: an entity from the three-argument constructor with two
components; after Update, Destroy, Render a further Update invokes nothing
and leaves the entity as it was. -/
theorem C1_hooks_follow_most_recent_lifecycle_witness :
    ((((Entity.Entity_name_layer "white_pawn_1" Layer.chess_piece).AddComponent 7).AddComponent
        9).run counterHooks
        [EntityCall.Update 1, EntityCall.Destroy, EntityCall.Render]).call
      counterHooks (EntityCall.Update 5) =
    ((((Entity.Entity_name_layer "white_pawn_1" Layer.chess_piece).AddComponent 7).AddComponent
        9).run counterHooks
        [EntityCall.Update 1, EntityCall.Destroy, EntityCall.Render], []) :=
  ((C1_hooks_follow_most_recent_lifecycle counterHooks
    (((Entity.Entity_name_layer "white_pawn_1" Layer.chess_piece).AddComponent 7).AddComponent 9)
    (Entity.Built.AddComponent 9 (Entity.Built.AddComponent 7
      (Entity.Built.name_layer "white_pawn_1" Layer.chess_piece)))
    [EntityCall.Update 1, EntityCall.Destroy, EntityCall.Render]).1 rfl).1 5

/-- C2: on an active entity with components c1, ..., cn, `Update(deltaTime)`
calls `c1.Update(deltaTime)`, ..., `cn.Update(deltaTime)`, each exactly once,
in this order, with the deltaTime it was given: these are the calls issued,
and the entity afterwards is the same entity with every component replaced by
what one application of its Update hook returns. `Render()` does the same
with `c1.Render()`, ..., `cn.Render()`. Each issues as many calls as there
are components, and with no component both issue no call and leave the
entity unchanged. -/
theorem C2_dispatch_in_insertion_order (hooks : ComponentHooks C DT) (e : Entity C)
    (active : e.isActive = true) (deltaTime : DT) :
    e.Update hooks deltaTime =
      (Entity.mk e.name e.layer_ true (e.components.map (hooks.Update deltaTime)),
        e.components.map (fun c => HookCall.Update c deltaTime)) ∧
    e.Render hooks =
      (Entity.mk e.name e.layer_ true (e.components.map hooks.Render),
        e.components.map (fun c => HookCall.Render c)) ∧
    (e.Update hooks deltaTime).1.components = e.components.map (hooks.Update deltaTime) ∧
    (e.Render hooks).1.components = e.components.map hooks.Render ∧
    (e.Update hooks deltaTime).2 = e.components.map (fun c => HookCall.Update c deltaTime) ∧
    (e.Render hooks).2 = e.components.map (fun c => HookCall.Render c) ∧
    (e.Update hooks deltaTime).2.length = e.components.length ∧
    (e.Render hooks).2.length = e.components.length ∧
    (e.components = [] →
      e.Update hooks deltaTime = (e, []) ∧ e.Render hooks = (e, [])) := by
  have hu : e.Update hooks deltaTime =
      (Entity.mk e.name e.layer_ true (e.components.map (hooks.Update deltaTime)),
        e.components.map (fun c => HookCall.Update c deltaTime)) := by
    simp [Entity.Update, active, updateLoop_calls, updateLoop_components]
  have hr : e.Render hooks =
      (Entity.mk e.name e.layer_ true (e.components.map hooks.Render),
        e.components.map (fun c => HookCall.Render c)) := by
    simp [Entity.Render, active, renderLoop_calls, renderLoop_components]
  refine ⟨hu, hr, ?_, ?_, ?_, ?_, ?_, ?_, fun hnil => ?_⟩
  · rw [hu]
  · rw [hr]
  · rw [hu]
  · rw [hr]
  · rw [hu]; exact List.length_map _ _
  · rw [hr]; exact List.length_map _ _
  · rw [hu, hr, hnil]
    cases e
    simp_all

/-- Witness for C2: an active entity with the components 7, 9, 7 and the
delta time 3; every component is advanced once and called once. -/
theorem C2_dispatch_in_insertion_order_witness :
    (Entity.mk "e" Layer.chess_piece true [7, 9, 7]).Update counterHooks 3 =
      (Entity.mk "e" Layer.chess_piece true ([7, 9, 7].map (counterHooks.Update 3)),
        [7, 9, 7].map (fun c => HookCall.Update c 3)) :=
  (C2_dispatch_in_insertion_order counterHooks
    (Entity.mk "e" Layer.chess_piece true [7, 9, 7]) rfl 3).1

/-- C7: `Destroy` yields the same entity with `isActive` false and `Activate`
the same entity with `isActive` true: name, layer and the component sequence
are unchanged; no sequence of Destroy, Activate, Update and Render calls
changes the name, the layer or the number of components; and Destroy followed
by Activate gives back an active entity unchanged. -/
theorem C7_destroy_activate_frame (hooks : ComponentHooks C DT) (e : Entity C) :
    e.Destroy = Entity.mk e.name e.layer_ false e.components ∧
    e.Activate = Entity.mk e.name e.layer_ true e.components ∧
    (e.Destroy.name = e.name ∧ e.Destroy.layer_ = e.layer_ ∧
      e.Destroy.components = e.components ∧ e.Destroy.IsActive = false) ∧
    (e.Activate.name = e.name ∧ e.Activate.layer_ = e.layer_ ∧
      e.Activate.components = e.components ∧ e.Activate.IsActive = true) ∧
    (∀ calls : List (EntityCall DT), (e.run hooks calls).layer_ = e.layer_ ∧
      (e.run hooks calls).name = e.name ∧
      (e.run hooks calls).components.length = e.components.length) ∧
    (e.isActive = true → e.Destroy.Activate = e) := by
  refine ⟨rfl, rfl, ⟨rfl, rfl, rfl, rfl⟩, ⟨rfl, rfl, rfl, rfl⟩, fun calls => ?_, fun h => ?_⟩
  · obtain ⟨h1, h2, h3⟩ := Entity.run_frame hooks calls e
    exact ⟨h2, h1, h3⟩
  · cases e
    simp_all [Entity.Destroy, Entity.Activate]

end EntityClaims


/-! ## Lemmas on `ProcessInput` -/

section ProcessInputLemmas

variable {S : Type}

theorem ProcessInput.handle_calls (ops : StatemachineOps S) (g : Game) (sm : S) (event : Event) :
    (ProcessInput.handle ops g sm event).2.map Prod.fst = specCalls event := by
  cases event with
  | SDL_KEYDOWN sym =>
    by_cases h : sym = SDLK_ESCAPE <;> simp [ProcessInput.handle, specCalls, h]
  | _ => simp [ProcessInput.handle, specCalls]

theorem ProcessInput_append (ops : StatemachineOps S) (pre post : List Event) :
    ∀ (g : Game) (sm : S),
      ProcessInput ops (pre ++ post) g sm =
        ((ProcessInput ops post (ProcessInput ops pre g sm).1.1 (ProcessInput ops pre g sm).1.2).1,
          (ProcessInput ops pre g sm).2 ++
            (ProcessInput ops post (ProcessInput ops pre g sm).1.1
              (ProcessInput ops pre g sm).1.2).2) := by
  induction pre with
  | nil => intro g sm; simp [ProcessInput]
  | cons event pre ih =>
    intro g sm
    have h := ih (ProcessInput.handle ops g sm event).1.1
      (ProcessInput.handle ops g sm event).1.2
    rw [List.cons_append]
    simp only [ProcessInput]
    rw [h]
    simp [List.append_assoc]

theorem ProcessInput_calls (ops : StatemachineOps S) (queue : List Event) :
    ∀ (g : Game) (sm : S),
      (ProcessInput ops queue g sm).2.map Prod.fst = queue.flatMap specCalls := by
  induction queue with
  | nil => intro g sm; simp [ProcessInput]
  | cons event queue ih =>
    intro g sm
    simp only [ProcessInput, List.map_append, List.flatMap_cons]
    rw [ih, ProcessInput.handle_calls]

theorem specCalls_count_update (queue : List Event) :
    (queue.flatMap specCalls).count StatemachineCall.UpdateStatemachine =
      queue.count Event.SDL_MOUSEBUTTONUP := by
  induction queue with
  | nil => rfl
  | cons event queue ih =>
    rw [List.flatMap_cons, List.count_append, ih, List.count_cons]
    cases event <;> simp [specCalls, Nat.add_comm]

theorem issueOn_append (ops : StatemachineOps S) (calls more : List StatemachineCall) :
    ∀ sm : S, issueOn ops sm (calls ++ more) =
      issueOn ops sm calls ++ issueOn ops (calls.foldl ops.apply sm) more := by
  induction calls with
  | nil => intro sm; rfl
  | cons call calls ih => intro sm; simp [issueOn, ih]

theorem ProcessInput.handle_effect (ops : StatemachineOps S) (g : Game) (sm : S)
    (event : Event) :
    (ProcessInput.handle ops g sm event).2 = issueOn ops sm (specCalls event) ∧
    (ProcessInput.handle ops g sm event).1.2 = (specCalls event).foldl ops.apply sm ∧
    (ProcessInput.handle ops g sm event).1.1 =
      (if event.quits then { g with isRunning := false } else g) := by
  cases event with
  | SDL_KEYDOWN sym =>
    by_cases h : sym = SDLK_ESCAPE <;>
      simp [ProcessInput.handle, specCalls, issueOn, Event.quits, h]
  | _ => simp [ProcessInput.handle, specCalls, issueOn, Event.quits, StatemachineOps.apply]

/-- The log, the final state machine and the final object of a pass. -/
theorem ProcessInput_effect (ops : StatemachineOps S) (queue : List Event) :
    ∀ (g : Game) (sm : S),
      (ProcessInput ops queue g sm).2 = issueOn ops sm (queue.flatMap specCalls) ∧
      (ProcessInput ops queue g sm).1.2 = (queue.flatMap specCalls).foldl ops.apply sm ∧
      (ProcessInput ops queue g sm).1.1 =
        (if queue.any Event.quits then { g with isRunning := false } else g) := by
  induction queue with
  | nil => intro g sm; simp [ProcessInput, issueOn]
  | cons event queue ih =>
    intro g sm
    obtain ⟨h1, h2, h3⟩ := ProcessInput.handle_effect ops g sm event
    obtain ⟨i1, i2, i3⟩ := ih (ProcessInput.handle ops g sm event).1.1
      (ProcessInput.handle ops g sm event).1.2
    simp only [ProcessInput, List.flatMap_cons, List.foldl_append, List.any_cons]
    refine ⟨?_, ?_, ?_⟩
    · rw [i1, h1, h2, issueOn_append]
    · rw [i2, h2]
    · rw [i3, h3]
      by_cases hq : event.quits = true <;> by_cases ha : queue.any Event.quits = true <;>
        simp [hq, ha]

/-- The mouse cache after a prefix of the queue has been handled. -/
theorem ProcessInput_mouse_cache {R : Type} (transition : Statemachine R → R)
    (pre : List Event) :
    ∀ (g : Game) (sm : Statemachine R),
      ((ProcessInput (Statemachine.ops transition) pre g sm).1.2.mouseX,
        (ProcessInput (Statemachine.ops transition) pre g sm).1.2.mouseY) =
          (latestMotion pre).getD (sm.mouseX, sm.mouseY) ∧
      (ProcessInput (Statemachine.ops transition) pre g sm).1.2.mousebutton =
          (latestButton pre).getD sm.mousebutton := by
  induction pre with
  | nil => intro g sm; simp [ProcessInput, latestMotion, latestButton]
  | cons event pre ih =>
    intro g sm
    simp only [ProcessInput, latestMotion, latestButton]
    obtain ⟨hm, hb⟩ := ih (ProcessInput.handle (Statemachine.ops transition) g sm event).1.1
      (ProcessInput.handle (Statemachine.ops transition) g sm event).1.2
    rw [hm, hb]
    constructor
    · cases latestMotion pre with
      | some p => rfl
      | none =>
        cases event with
        | SDL_KEYDOWN sym =>
          by_cases h : sym = SDLK_ESCAPE <;> simp [ProcessInput.handle, h]
        | _ => simp [ProcessInput.handle, Statemachine.ops, Statemachine.SetMousebutton,
            Statemachine.SetMousePosition, Statemachine.UpdateStatemachine]
    · cases latestButton pre with
      | some b => rfl
      | none =>
        cases event with
        | SDL_KEYDOWN sym =>
          by_cases h : sym = SDLK_ESCAPE <;> simp [ProcessInput.handle, h]
        | _ => simp [ProcessInput.handle, Statemachine.ops, Statemachine.SetMousebutton,
            Statemachine.SetMousePosition, Statemachine.UpdateStatemachine]

end ProcessInputLemmas

/-! ## Game loop claims -/

/-- C3, as the code has it: `Render` always sets the draw colour and clears
first; when `HasNoEntities()` is false it then runs the manager's render pass
and presents, in this order; when `HasNoEntities()` is true it returns right
after the clear, with no render pass and no present. -/
theorem C3_render_presents_unless_no_entities (HasNoEntities : Bool) :
    (HasNoEntities = false →
      Render HasNoEntities =
        [RenderCall.SDL_SetRenderDrawColor 21 21 21 255, RenderCall.SDL_RenderClear,
         RenderCall.manager_Render, RenderCall.SDL_RenderPresent]) ∧
    (HasNoEntities = true →
      Render HasNoEntities =
        [RenderCall.SDL_SetRenderDrawColor 21 21 21 255, RenderCall.SDL_RenderClear]) := by
  cases HasNoEntities <;> simp [Render]

/-- C3 as stated fails when the manager has no entities: the frame is cleared
but neither rendered nor presented. -/
theorem C3_no_present_when_no_entities :
    Render true =
        [RenderCall.SDL_SetRenderDrawColor 21 21 21 255, RenderCall.SDL_RenderClear] ∧
      RenderCall.SDL_RenderPresent ∉ Render true ∧
      RenderCall.manager_Render ∉ Render true := by
  decide

/-- C4: for every queue of events, the state machine calls `ProcessInput`
issues are the in-order concatenation of the per-event mapping of the
specification, and the number of `UpdateStatemachine` calls is the number of
button-up events in the queue. The calls are really made: each is issued on
the state the calls before it have produced, the state machine after the pass
is the result of applying them all in order to the state before the pass, and
`isRunning` is cleared exactly when the queue holds a quit event or an escape
key press. -/
theorem C4_calls_are_per_event_mapping {S : Type} (ops : StatemachineOps S)
    (queue : List Event) (g : Game) (statemachine : S) :
    (ProcessInput ops queue g statemachine).2.map Prod.fst = queue.flatMap specCalls ∧
    ((ProcessInput ops queue g statemachine).2.map Prod.fst).count
        StatemachineCall.UpdateStatemachine = queue.count Event.SDL_MOUSEBUTTONUP ∧
    (ProcessInput ops queue g statemachine).2 =
      issueOn ops statemachine (queue.flatMap specCalls) ∧
    (ProcessInput ops queue g statemachine).1.2 =
      (queue.flatMap specCalls).foldl ops.apply statemachine ∧
    (ProcessInput ops queue g statemachine).1.1 =
      (if queue.any Event.quits then { g with isRunning := false } else g) := by
  have h := ProcessInput_calls ops queue g statemachine
  obtain ⟨hlog, hsm, hg⟩ := ProcessInput_effect ops queue g statemachine
  exact ⟨h, by rw [h]; exact specCalls_count_update queue, hlog, hsm, hg⟩

/-- C9: with the setters as plain field writes, for every queue split as
`pre`, a button-up, `post`: the calls of the pass are those for `pre`, then
`UpdateStatemachine` issued on the state reached after `pre`, then
`SetMousebutton(false)` issued on the updated state, then those for `post`;
and in the state `UpdateStatemachine` is issued on, the cached position is
that of the latest motion event of `pre` (the position before the pass if
there is none) and the button flag is the value written by the latest button
event of `pre` (the flag before the pass if there is none). -/
theorem C9_update_observes_latest_setters {R : Type} (transition : Statemachine R → R)
    (pre post : List Event) (g : Game) (statemachine : Statemachine R) :
    (ProcessInput (Statemachine.ops transition)
        (pre ++ Event.SDL_MOUSEBUTTONUP :: post) g statemachine).2 =
      (ProcessInput (Statemachine.ops transition) pre g statemachine).2 ++
        [(StatemachineCall.UpdateStatemachine,
            (ProcessInput (Statemachine.ops transition) pre g statemachine).1.2),
         (StatemachineCall.SetMousebutton false,
            Statemachine.UpdateStatemachine transition
              (ProcessInput (Statemachine.ops transition) pre g statemachine).1.2)] ++
        (ProcessInput (Statemachine.ops transition) post
          (ProcessInput (Statemachine.ops transition) pre g statemachine).1.1
          (Statemachine.SetMousebutton false (Statemachine.UpdateStatemachine transition
            (ProcessInput (Statemachine.ops transition) pre g statemachine).1.2))).2 ∧
    ((ProcessInput (Statemachine.ops transition) pre g statemachine).1.2.mouseX,
      (ProcessInput (Statemachine.ops transition) pre g statemachine).1.2.mouseY) =
        (latestMotion pre).getD (statemachine.mouseX, statemachine.mouseY) ∧
    (ProcessInput (Statemachine.ops transition) pre g statemachine).1.2.mousebutton =
        (latestButton pre).getD statemachine.mousebutton := by
  refine ⟨?_, ProcessInput_mouse_cache transition pre g statemachine⟩
  rw [ProcessInput_append]
  simp [ProcessInput, ProcessInput.handle, Statemachine.ops, List.append_assoc]


/-! ## `Initialize` claims -/

/-- C10: a freshly constructed `SimpleChess` is not running; after
`Initialize` on it, it is running exactly when `SDL_Init` returned 0 and the
window and the renderer are non-null; and on any object, when one of the
three steps fails, `Initialize` stops at the first failing step: `isRunning`
is unchanged, the steps executed are the SDL calls up to the failing one and
the error message, and no later step is among them. -/
theorem C10_running_iff_sdl_startup_succeeds (sdl : SDLStartup) (k : Constants)
    (window0 renderer0 : Nat) (width height : Int) :
    (Game.SimpleChess window0 renderer0).IsRunning = false ∧
    (((Game.SimpleChess window0 renderer0).Initialize sdl k width height).1.IsRunning = true ↔
      sdl.SDL_Init = 0 ∧ sdl.SDL_CreateWindow ≠ 0 ∧ sdl.SDL_CreateRenderer ≠ 0) ∧
    (∀ g : Game, sdl.SDL_Init ≠ 0 →
      g.Initialize sdl k width height =
        (g, [InitStep.SDL_Init, InitStep.cerr "Error initializing SDL."])) ∧
    (∀ g : Game, sdl.SDL_Init = 0 → sdl.SDL_CreateWindow = 0 →
      (g.Initialize sdl k width height).1.isRunning = g.isRunning ∧
      (g.Initialize sdl k width height).2 =
        [InitStep.SDL_Init, InitStep.SDL_CreateWindow width height,
         InitStep.cerr "Error creating SDL window."]) ∧
    (∀ g : Game, sdl.SDL_Init = 0 → sdl.SDL_CreateWindow ≠ 0 → sdl.SDL_CreateRenderer = 0 →
      (g.Initialize sdl k width height).1.isRunning = g.isRunning ∧
      (g.Initialize sdl k width height).2 =
        [InitStep.SDL_Init, InitStep.SDL_CreateWindow width height,
         InitStep.SDL_CreateRenderer sdl.SDL_CreateWindow,
         InitStep.cerr "Error creating SDL renderer."]) ∧
    (∀ g : Game,
      ¬ (sdl.SDL_Init = 0 ∧ sdl.SDL_CreateWindow ≠ 0 ∧ sdl.SDL_CreateRenderer ≠ 0) →
      (g.Initialize sdl k width height).1.isRunning = g.isRunning ∧
      ∀ step ∈ (g.Initialize sdl k width height).2, step.isLater = false) := by
  refine ⟨rfl, ?_, ?_, ?_, ?_, ?_⟩
  · by_cases h1 : sdl.SDL_Init = 0 <;> by_cases h2 : sdl.SDL_CreateWindow = 0 <;>
      by_cases h3 : sdl.SDL_CreateRenderer = 0 <;>
      simp [Game.Initialize, Game.SimpleChess, Game.IsRunning, h1, h2, h3]
  · intro g h1
    simp [Game.Initialize, h1]
  · intro g h1 h2
    simp [Game.Initialize, h1, h2]
  · intro g h1 h2 h3
    simp [Game.Initialize, h1, h2, h3]
  · intro g h
    by_cases h1 : sdl.SDL_Init = 0 <;> by_cases h2 : sdl.SDL_CreateWindow = 0 <;>
      by_cases h3 : sdl.SDL_CreateRenderer = 0 <;>
      simp_all [Game.Initialize, InitStep.isLater]


/-! ## `LoadBoardSetup` -/

theorem EntityManager.onNewEntity_last {C : Type} (f : Entity C → Entity C) (e : Entity C) :
    ∀ entities : List (Entity C),
      EntityManager.onNewEntity f (entities ++ [e]) = entities ++ [f e] := by
  intro entities
  induction entities with
  | nil => rfl
  | cons a as ih =>
    cases as with
    | nil => rfl
    | cons a2 as => simpa [EntityManager.onNewEntity] using ih

theorem c_str_of_noNul (s : String) (h : noNul s) : c_str s = s := by
  unfold c_str
  have : s.data.takeWhile (fun ch => ch != Char.ofNat 0) = s.data := by
    rw [List.takeWhile_eq_self_iff]
    intro ch hch
    simpa using h ch hch
  rw [this]

theorem asset_id_eq (color type : String) :
    (color.push '_') ++ type = color ++ "_" ++ type := by
  apply String.ext
  simp [String.data_append, String.data_push]

theorem asset_id_noNul (color type : String) (hc : noNul color) (ht : noNul type) :
    noNul (color ++ "_" ++ type) := by
  rw [← asset_id_eq]
  intro ch hch
  simp only [String.data_append, String.data_push, List.mem_append, List.mem_singleton] at hch
  rcases hch with (hch | hch) | hch
  · exact hc ch hch
  · rw [hch]; decide
  · exact ht ch hch

theorem LoadBoardSetup.body_eq (k : Constants) (r : SetupRecord) :
    LoadBoardSetup.body k r = cStringPieceCalls k r := by
  simp only [LoadBoardSetup.body, cStringPieceCalls]
  rw [asset_id_eq]

theorem cStringPiece_of_noNul (k : Constants) (r : SetupRecord) (hc : noNul r.color)
    (ht : noNul r.type) :
    cStringPieceCalls k r = specPieceCalls k r ∧ cStringPieceOf k r = pieceOf k r := by
  simp only [cStringPieceCalls, specPieceCalls, cStringPieceOf, pieceOf]
  rw [c_str_of_noNul _ (asset_id_noNul _ _ hc ht)]
  exact ⟨rfl, rfl⟩

theorem EntityManager.perform_cStringPieceCalls (k : Constants) (r : SetupRecord)
    (entities : List (Entity Component)) :
    (cStringPieceCalls k r).foldl EntityManager.perform entities =
      entities ++ [cStringPieceOf k r] := by
  simp only [cStringPieceCalls, List.foldl, EntityManager.perform, EntityManager.AddEntity]
  rw [EntityManager.onNewEntity_last, EntityManager.onNewEntity_last,
    EntityManager.onNewEntity_last]
  rfl

theorem EntityManager.perform_pieces (k : Constants) (records : List SetupRecord) :
    ∀ entities : List (Entity Component),
      (records.flatMap (cStringPieceCalls k)).foldl EntityManager.perform entities =
        entities ++ records.map (cStringPieceOf k) := by
  induction records with
  | nil => intro entities; simp
  | cons r records ih =>
    intro entities
    rw [List.flatMap_cons, List.foldl_append, EntityManager.perform_cStringPieceCalls, ih]
    simp [List.append_assoc]

theorem LoadBoardSetup.loop_spec (k : Constants) (chessboardSetup : Nat → Option SetupRecord) :
    ∀ (m index fuel : Nat),
      index + m < 2 ^ 32 →
      (∀ j < m, ∃ r, chessboardSetup (index + j) = some r) →
      chessboardSetup (index + m) = none →
      m < fuel →
      LoadBoardSetup.loop k chessboardSetup fuel index =
        some (((List.range m).filterMap (fun j => chessboardSetup (index + j))).flatMap
          (cStringPieceCalls k)) := by
  intro m
  induction m with
  | zero =>
    intro index fuel _ _ hnone hfuel
    obtain ⟨f, rfl⟩ : ∃ f, fuel = f + 1 := ⟨fuel - 1, by omega⟩
    rw [Nat.add_zero] at hnone
    simp [LoadBoardSetup.loop, hnone]
  | succ m ih =>
    intro index fuel hsmall hpresent hnone hfuel
    obtain ⟨f, rfl⟩ : ∃ f, fuel = f + 1 := ⟨fuel - 1, by omega⟩
    obtain ⟨r, hr⟩ := hpresent 0 (Nat.succ_pos m)
    rw [Nat.add_zero] at hr
    have hwrap : (index + 1) % 2 ^ 32 = index + 1 := Nat.mod_eq_of_lt (by omega)
    have hshift : ∀ j, index + 1 + j = index + (j + 1) := fun j => by omega
    have hrest := ih (index + 1) f (by omega)
      (fun j hj => by rw [hshift]; exact hpresent (j + 1) (by omega))
      (by rw [hshift]; exact hnone) (by omega)
    simp only [LoadBoardSetup.loop, hr, hwrap]
    rw [hrest, LoadBoardSetup.body_eq k r, List.range_succ_eq_map, List.filterMap_cons]
    simp only [Nat.add_zero, hr]
    rw [List.filterMap_map]
    simp [Function.comp_def, hshift]

theorem filterMap_range_length (chessboardSetup : Nat → Option SetupRecord) (n : Nat)
    (present : ∀ i < n, ∃ r, chessboardSetup i = some r) :
    ((List.range n).filterMap chessboardSetup).length = n := by
  induction n with
  | zero => rfl
  | succ m ih =>
    obtain ⟨r, hr⟩ := present m (by omega)
    rw [List.range_succ, List.filterMap_append, List.length_append,
      ih (fun i hi => present i (by omega))]
    simp [hr]

theorem LoadBoardSetup.loop_fullSetup (k : Constants) :
    ∀ fuel index : Nat, index < 2 ^ 32 →
      LoadBoardSetup.loop k fullSetup fuel index = none := by
  intro fuel
  induction fuel with
  | zero => intro index _; rfl
  | succ f ih =>
    intro index hindex
    have hrest := ih ((index + 1) % 2 ^ 32) (Nat.mod_lt _ (by decide))
    have hfull : fullSetup index =
        some (SetupRecord.mk "white_pawn_1" "pawn" "white" false "A2") := if_pos hindex
    simp only [LoadBoardSetup.loop, hfull, hrest]

/-- C6, as the code has it: for a setup table with records at the indices
0, ..., n - 1 and none at index n, n being within the range of the `unsigned
int` index, `LoadBoardSetup` returns, having made for each of the n records,
in index order, exactly the calls `AddEntity(name, chess_piece)` and, on the
entity returned, `AddComponent` of TransformComponent(position, piece side
length, piece side length, 1), of SpriteComponent(asset id) and of
ChesspieceComponent(type, color, killed), in this order, and no other call,
where the asset id is `color ++ "_" ++ type` up to its first NUL character;
on the manager these calls store, after the former entities, exactly one new
active entity per record holding exactly these three components; and for a
record whose color and type hold no NUL character the asset id is exactly
`color ++ "_" ++ type`. -/
theorem C6_one_piece_per_record (k : Constants) (chessboardSetup : Nat → Option SetupRecord)
    (n fuel : Nat) (entities : List (Entity Component))
    (in_range : n < 2 ^ 32)
    (present : ∀ i < n, ∃ r, chessboardSetup i = some r)
    (missing : chessboardSetup n = none)
    (enough : n < fuel) :
    LoadBoardSetup k chessboardSetup fuel =
      some (((List.range n).filterMap chessboardSetup).flatMap (cStringPieceCalls k)) ∧
    ((List.range n).filterMap chessboardSetup).length = n ∧
    (((List.range n).filterMap chessboardSetup).flatMap (cStringPieceCalls k)).foldl
        EntityManager.perform entities =
      entities ++ ((List.range n).filterMap chessboardSetup).map (cStringPieceOf k) ∧
    (∀ r : SetupRecord, noNul r.color → noNul r.type →
      cStringPieceCalls k r = specPieceCalls k r ∧ cStringPieceOf k r = pieceOf k r) := by
  refine ⟨?_, filterMap_range_length chessboardSetup n present,
    EntityManager.perform_pieces k _ entities, fun r hc ht => cStringPiece_of_noNul k r hc ht⟩
  have h := LoadBoardSetup.loop_spec k chessboardSetup n 0 fuel (by omega)
    (fun j hj => by rw [Nat.zero_add]; exact present j hj)
    (by rw [Nat.zero_add]; exact missing) enough
  simp only [Nat.zero_add] at h
  exact h

/-- Witness for C6: a table with a white pawn at index 0 and a black king at
index 1, and nothing at index 2. -/
theorem C6_one_piece_per_record_witness :
    LoadBoardSetup (Constants.mk 80 40 60) sampleSetup 3 =
      some (((List.range 2).filterMap sampleSetup).flatMap
        (cStringPieceCalls (Constants.mk 80 40 60))) ∧
    ((List.range 2).filterMap sampleSetup).length = 2 :=
  ⟨(C6_one_piece_per_record (Constants.mk 80 40 60) sampleSetup 2 3 [] (by decide)
      (fun i hi => by
        interval_cases i
        · exact ⟨SetupRecord.mk "white_pawn_1" "pawn" "white" false "A2", rfl⟩
        · exact ⟨SetupRecord.mk "black_king" "king" "black" false "E8", rfl⟩)
      rfl (by decide)).1,
   (C6_one_piece_per_record (Constants.mk 80 40 60) sampleSetup 2 3 [] (by decide)
      (fun i hi => by
        interval_cases i
        · exact ⟨SetupRecord.mk "white_pawn_1" "pawn" "white" false "A2", rfl⟩
        · exact ⟨SetupRecord.mk "black_king" "king" "black" false "E8", rfl⟩)
      rfl (by decide)).2.1⟩

/-- C6 as stated fails in two ways. For a record whose color holds a NUL
character the sprite receives the asset id only up to that character (`wh`
for the color `wh`, NUL, `ite`), not `color ++ "_" ++ type`. And for a table
with a record at every index below `2 ^ 32`, whose first missing index is
`2 ^ 32`, the `unsigned int` index wraps to 0 and the loop never ends. -/
theorem C6_asset_id_cut_at_nul_and_index_wraps :
    LoadBoardSetup (Constants.mk 80 40 60) nulSetup 2 =
        some [SetupCall.AddEntity "white_pawn_1" Layer.chess_piece,
          SetupCall.AddComponent (Component.TransformComponent "A2" 60 60 1),
          SetupCall.AddComponent (Component.SpriteComponent "wh"),
          SetupCall.AddComponent (Component.ChesspieceComponent "pawn" "wh\x00ite" false)] ∧
      LoadBoardSetup (Constants.mk 80 40 60) nulSetup 2 ≠
        some (((List.range 1).filterMap nulSetup).flatMap
          (specPieceCalls (Constants.mk 80 40 60))) ∧
      (fullSetup (2 ^ 32) = none ∧
        ∀ fuel : Nat, LoadBoardSetup (Constants.mk 80 40 60) fullSetup fuel = none) := by
  refine ⟨by decide, by decide, by decide, fun fuel => ?_⟩
  exact LoadBoardSetup.loop_fullSetup _ fuel 0 (by decide)

/-! ## `Update` -/

theorem binary32_1000 : binary32 1000 1 = 1000 := by
  have h : floorLog2 1000 1 = 9 := by decide
  simp [binary32, h, roundHalfEven]
  norm_num

theorem binary32_1 : binary32 1 1 = 1 := by
  have h : floorLog2 1 1 = 0 := by decide
  simp [binary32, h, roundHalfEven]
  norm_num

theorem float_0_05_eq : float_0_05 = 13421773 / 268435456 := by
  have h : floorLog2 1 20 = -5 := by decide
  simp [float_0_05, binary32, h, roundHalfEven]
  norm_num

theorem Update.deltaTime_1000 : Update.deltaTime 1000 0 = 13421773 / 268435456 := by
  have hsub : uint32_sub 1000 0 = 1000 := by decide
  simp [Update.deltaTime, float_div, float_of_uint32, float_1000, hsub, binary32_1000,
    binary32_1, float_0_05_eq]
  norm_num

theorem Update.deltaTime_16 : Update.deltaTime 16 0 = 8589935 / 2 ^ 29 := by
  have hsub : uint32_sub 16 0 = 16 := by decide
  have h16 : binary32 16 1 = 16 := by
    have h : floorLog2 16 1 = 4 := by decide
    simp [binary32, h, roundHalfEven]
    norm_num
  have hq : ((16 : ℚ) / 1000) = Rat.divInt 2 125 := by
    rw [Rat.divInt_eq_div]; norm_num
  have hnum : ((16 : ℚ) / 1000).num = 2 := by
    rw [hq]; rfl
  have hden : ((16 : ℚ) / 1000).den = 125 := by
    rw [hq]; rfl
  have hb : binary32 2 125 = 8589935 / 2 ^ 29 := by
    have h : floorLog2 2 125 = -6 := by decide
    simp [binary32, h, roundHalfEven]
    norm_num
  simp only [Update.deltaTime, float_div, float_of_uint32, float_1000, hsub, binary32_1000, h16,
    hnum, hden, Int.toNat_ofNat, float_0_05_eq]
  rw [show (2 : ℤ).toNat = 2 from rfl, hb]
  norm_num

theorem uint32_sub_of_le (a b : Nat) (hle : b ≤ a) (ha : a < 2 ^ 32) :
    uint32_sub a b = a - b := by
  unfold uint32_sub
  have hb : b < 2 ^ 32 := Nat.lt_of_le_of_lt hle ha
  rw [Nat.mod_eq_of_lt ha, Nat.mod_eq_of_lt hb]
  have : a + 2 ^ 32 - b = (a - b) + 2 ^ 32 := by omega
  rw [this, Nat.add_mod_right]
  exact Nat.mod_eq_of_lt (by omega)

/-- C5, as the code has it: for every pair of tick readings, with `elapsed`
their difference as a 32-bit unsigned integer (the number of milliseconds
between them when the later reading is the larger), the delta time that
`Update` passes to `manager.Update`, in its last call, is the smaller of the
`float` quotient `float(elapsed) / 1000.0f` and `0.05f`: it is never greater
than `0.05f`, which is 13421773 / 2 ^ 28, and equals the `float` quotient
whenever that is at most `0.05f`; at 16 ms, for instance, it is the `float`
nearest 0.016, which is 8589935 / 2 ^ 29. -/
theorem C5_delta_is_float_quotient_clamped_at_float_0_05
    (FRAME_TARGET_TIME ticks1 ticks2 ticks3 ticksLastFrame : Nat) :
    (Update FRAME_TARGET_TIME ticks1 ticks2 ticks3 ticksLastFrame).2.getLast? =
      some (UpdateCall.manager_Update
        (min (float_div (float_of_uint32 (uint32_sub ticks2 ticksLastFrame)) float_1000)
          float_0_05)) ∧
    Update.deltaTime ticks2 ticksLastFrame =
      min (float_div (float_of_uint32 (uint32_sub ticks2 ticksLastFrame)) float_1000)
        float_0_05 ∧
    Update.deltaTime ticks2 ticksLastFrame ≤ float_0_05 ∧
    (float_div (float_of_uint32 (uint32_sub ticks2 ticksLastFrame)) float_1000 ≤ float_0_05 →
      Update.deltaTime ticks2 ticksLastFrame =
        float_div (float_of_uint32 (uint32_sub ticks2 ticksLastFrame)) float_1000) ∧
    float_0_05 = 13421773 / 2 ^ 28 ∧
    (ticksLastFrame ≤ ticks2 → ticks2 < 2 ^ 32 →
      uint32_sub ticks2 ticksLastFrame = ticks2 - ticksLastFrame) ∧
    Update.deltaTime 16 0 = 8589935 / 2 ^ 29 := by
  have hmin : Update.deltaTime ticks2 ticksLastFrame =
      min (float_div (float_of_uint32 (uint32_sub ticks2 ticksLastFrame)) float_1000)
        float_0_05 := by
    unfold Update.deltaTime
    by_cases h : float_div (float_of_uint32 (uint32_sub ticks2 ticksLastFrame)) float_1000 >
        float_0_05
    · simp only [h, if_true]
      exact (min_eq_right (le_of_lt h)).symm
    · simp only [h, if_false]
      exact (min_eq_left (not_lt.mp h)).symm
  refine ⟨?_, hmin, ?_, fun hle => ?_, ?_, uint32_sub_of_le ticks2 ticksLastFrame,
    Update.deltaTime_16⟩
  · simp [Update, hmin]
  · rw [hmin]; exact min_le_right _ _
  · rw [hmin]; exact min_eq_left hle
  · rw [float_0_05_eq]; norm_num

/-- C5 as stated fails at an elapsed time of 1000 ms (ticks 1000, last frame
at 0): `1000.0f / 1000.0f` is `1.0f` without rounding, and the delta time
passed on is `0.05f` = 13421773 / 2 ^ 28, which is greater than 1 / 20 and so
is not min(1000 / 1000, 0.05). -/
theorem C5_delta_exceeds_one_twentieth :
    Update.deltaTime 1000 0 = 13421773 / 2 ^ 28 ∧
      (1 / 20 : ℚ) < Update.deltaTime 1000 0 ∧
      Update.deltaTime 1000 0 ≠ min ((1000 : ℚ) / 1000) (1 / 20) := by
  rw [Update.deltaTime_1000]
  norm_num

end SimpleChess
